import Mathlib

/-!
Shallow embedding of `src/lib.rs`: a SCALE-codec schema-evolution example with
three struct types (`version_1::Struct`, `version_2_a::Struct`,
`version_2_b::Struct`), their `Encode`/`Decode` implementations and their
`PartialEq` ("Partial Equality") implementations.

Modelling choices:
* Bytes are `Nat`; well-formedness (`wf*`) records the Rust type's bounds
  (`u8` values `< 256`, SCALE `Vec` lengths `< 2^32`, the bound under which
  `Compact<u32>` length encoding is defined in parity-scale-codec).
* A Rust `String` is modelled as its UTF-8 byte list.  String decode's UTF-8
  validation is not modelled: every decode considered here reads bytes
  produced by encoding a valid string.
* `decode` takes the input byte list and returns `Option (value × rest)`:
  `none` models both a codec `Err` and an `unwrap` panic (both are hard
  decode failures, never a silently returned record); `rest` is the
  unconsumed input, matching parity-scale-codec's cursor-style `Input`.
* The SCALE primitives (`u8`, `[u8; 4]`, `Option<T>`, `Compact<u32>` length
  prefixes, `Vec<String>`) are modelled from parity-scale-codec's documented
  wire format: `Option` is one discriminant byte (0 = nothing, 1 = payload
  follows), vectors and strings are compact-length-prefixed, fixed arrays are
  raw bytes, and compact decoding rejects non-minimal encodings.
-/

/-- SCALE `Compact<u32>` encoding of a length `n` (defined for `n < 2^32`;
parity-scale-codec panics above that, which this total model does not chase). -/
def encodeCompact (n : Nat) : List Nat :=
  if n < 64 then
    [n * 4]
  else if n < 16384 then
    [(n * 4 + 1) % 256, (n * 4 + 1) / 256]
  else if n < 1073741824 then
    [(n * 4 + 2) % 256, (n * 4 + 2) / 256 % 256,
     (n * 4 + 2) / 65536 % 256, (n * 4 + 2) / 16777216 % 256]
  else
    [3, n % 256, n / 256 % 256, n / 65536 % 256, n / 16777216 % 256]

/-- SCALE `Compact<u32>` decoding: mode = low two bits of the first byte;
each mode checks the decoded value is in its canonical range. -/
def decodeCompact : List Nat → Option (Nat × List Nat)
  | [] => none
  | b :: r =>
    if b % 4 = 0 then
      some (b / 4, r)
    else if b % 4 = 1 then
      match r with
      | b1 :: r1 =>
        if 63 < (b + b1 * 256) / 4 ∧ (b + b1 * 256) / 4 < 16384 then
          some ((b + b1 * 256) / 4, r1)
        else none
      | [] => none
    else if b % 4 = 2 then
      match r with
      | b1 :: b2 :: b3 :: r3 =>
        if 16383 < (b + b1 * 256 + b2 * 65536 + b3 * 16777216) / 4 ∧
            (b + b1 * 256 + b2 * 65536 + b3 * 16777216) / 4 < 1073741824 then
          some ((b + b1 * 256 + b2 * 65536 + b3 * 16777216) / 4, r3)
        else none
      | _ => none
    else
      if b / 4 = 0 then
        match r with
        | b0 :: b1 :: b2 :: b3 :: r4 =>
          if 1073741823 < b0 + b1 * 256 + b2 * 65536 + b3 * 16777216 then
            some (b0 + b1 * 256 + b2 * 65536 + b3 * 16777216, r4)
          else none
        | _ => none
      else none

/-- A Rust `[u8; 4]` value. -/
structure Bytes4 where
  b0 : Nat
  b1 : Nat
  b2 : Nat
  b3 : Nat
deriving DecidableEq, Repr

/-- SCALE encoding of `[u8; 4]`: the four raw bytes. -/
def encodeBytes4 (b : Bytes4) : List Nat :=
  [b.b0, b.b1, b.b2, b.b3]

/-- SCALE decoding of `[u8; 4]`: read four bytes. -/
def decodeBytes4 : List Nat → Option (Bytes4 × List Nat)
  | b0 :: b1 :: b2 :: b3 :: r => some (⟨b0, b1, b2, b3⟩, r)
  | _ => none

/-- SCALE encoding of `Option<[u8; 4]>`: discriminant byte then payload. -/
def encodeOptBytes4 : Option Bytes4 → List Nat
  | none => [0]
  | some b => 1 :: encodeBytes4 b

/-- SCALE decoding of `Option<[u8; 4]>`: 0 is nothing, 1 is something,
anything else is a decode error. -/
def decodeOptBytes4 : List Nat → Option (Option Bytes4 × List Nat)
  | 0 :: r => some (none, r)
  | 1 :: r =>
    match decodeBytes4 r with
    | some (b, r1) => some (some b, r1)
    | none => none
  | _ => none

/-- SCALE encoding of a `String`: compact byte length, then the UTF-8 bytes. -/
def encodeStr (s : List Nat) : List Nat :=
  encodeCompact s.length ++ s

/-- Read exactly `n` bytes from the input. -/
def readBytes : Nat → List Nat → Option (List Nat × List Nat)
  | 0, input => some ([], input)
  | _ + 1, [] => none
  | n + 1, b :: r =>
    match readBytes n r with
    | some (bs, r1) => some (b :: bs, r1)
    | none => none

/-- SCALE decoding of a `String`: compact length, then that many bytes. -/
def decodeStr (input : List Nat) : Option (List Nat × List Nat) :=
  match decodeCompact input with
  | some (len, r) => readBytes len r
  | none => none

/-- Concatenated SCALE encodings of a list of strings. -/
def encodeStrs : List (List Nat) → List Nat
  | [] => []
  | s :: ss => encodeStr s ++ encodeStrs ss

/-- Decode exactly `n` strings in sequence. -/
def decodeStrs : Nat → List Nat → Option (List (List Nat) × List Nat)
  | 0, input => some ([], input)
  | n + 1, input =>
    match decodeStr input with
    | some (s, r) =>
      match decodeStrs n r with
      | some (ss, r1) => some (s :: ss, r1)
      | none => none
    | none => none

/-- SCALE encoding of `Vec<String>`: compact element count, then the elements. -/
def encodeNames (ns : List (List Nat)) : List Nat :=
  encodeCompact ns.length ++ encodeStrs ns

/-- SCALE decoding of `Vec<String>`. -/
def decodeNames (input : List Nat) : Option (List (List Nat) × List Nat) :=
  match decodeCompact input with
  | some (len, r) => decodeStrs len r
  | none => none

/-- SCALE encoding of `Option<Vec<String>>`. -/
def encodeOptNames : Option (List (List Nat)) → List Nat
  | none => [0]
  | some ns => 1 :: encodeNames ns

/-- SCALE decoding of `Option<Vec<String>>`. -/
def decodeOptNames : List Nat → Option (Option (List (List Nat)) × List Nat)
  | 0 :: r => some (none, r)
  | 1 :: r =>
    match decodeNames r with
    | some (ns, r1) => some (some ns, r1)
    | none => none
  | _ => none

/-- The `[u8; 4]` value is made of `u8` bytes. -/
def wfBytes4 (b : Bytes4) : Bool :=
  decide (b.b0 < 256) && decide (b.b1 < 256) && decide (b.b2 < 256) &&
    decide (b.b3 < 256)

/-- A `String` value: UTF-8 bytes, length within `Compact<u32>` range. -/
def wfStr (s : List Nat) : Bool :=
  decide (s.length < 4294967296) && s.all fun b => decide (b < 256)

/-- A `Vec<String>` value: length within `Compact<u32>` range, entries
well-formed strings. -/
def wfNames (ns : List (List Nat)) : Bool :=
  decide (ns.length < 4294967296) && ns.all wfStr

/-- Well-formedness of an optional `[u8; 4]` field. -/
def wfOptBytes : Option Bytes4 → Bool
  | none => true
  | some b => wfBytes4 b

/-- Well-formedness of an optional `Vec<String>` field. -/
def wfOptNames : Option (List (List Nat)) → Bool
  | none => true
  | some ns => wfNames ns

namespace version_1

/-- `version_1::Struct`: version tag plus two explicit-optional fields. -/
structure Struct where
  version : Nat
  bytes : Option Bytes4
  names : Option (List (List Nat))
deriving DecidableEq, Repr

/-- Values of the Rust type: a `u8` tag and well-formed optional fields. -/
def Struct.wf (x : Struct) : Bool :=
  decide (x.version < 256) && wfOptBytes x.bytes && wfOptNames x.names

/-- The derived `Encode`: fields in declaration order. -/
def Struct.encode (x : Struct) : List Nat :=
  [x.version] ++ encodeOptBytes4 x.bytes ++ encodeOptNames x.names

/-- The derived `Decode`: fields in declaration order, errors propagate. -/
def Struct.decode : List Nat → Option (Struct × List Nat)
  | [] => none
  | v :: r =>
    match decodeOptBytes4 r with
    | some (b, r1) =>
      match decodeOptNames r1 with
      | some (n, r2) => some ({ version := v, bytes := b, names := n }, r2)
      | none => none
    | none => none

/-- `impl PartialEq for version_1::Struct`: start from `true`, and-in each
optional field's comparison only when it is `Some` in both operands. -/
def Struct.eq (a b : Struct) : Bool :=
  let e1 : Bool := true
  let e2 : Bool :=
    if a.bytes.isSome && b.bytes.isSome then e1 && decide (a.bytes = b.bytes)
    else e1
  let e3 : Bool :=
    if a.names.isSome && b.names.isSome then e2 && decide (a.names = b.names)
    else e2
  e3

end version_1

namespace version_2_a

/-- `version_2_a::Struct`: the `bytes` field is mandatory, `names` is gone. -/
structure Struct where
  version : Nat
  bytes : Bytes4
deriving DecidableEq, Repr

/-- Values of the Rust type. -/
def Struct.wf (x : Struct) : Bool :=
  decide (x.version < 256) && wfBytes4 x.bytes

/-- Manual `Encode`: version, `Some(bytes)`, then an explicit
`None::<Vec<String>>` so version-1 decoders still find the third field. -/
def Struct.encode (x : Struct) : List Nat :=
  [x.version] ++ encodeOptBytes4 (some x.bytes) ++ encodeOptNames none

/-- Manual `Decode`: reads the version, then decodes `Option<[u8; 4]>` and
unconditionally unwraps it — an absent payload is a panic, modelled `none`.
The trailing `names` option is not read at all. -/
def Struct.decode : List Nat → Option (Struct × List Nat)
  | [] => none
  | v :: r =>
    match decodeOptBytes4 r with
    | some (some b, r1) => some ({ version := v, bytes := b }, r1)
    | some (none, _) => none
    | none => none

/-- `impl PartialEq for version_2_a::Struct`: compares `bytes` only. -/
def Struct.eq (a b : Struct) : Bool :=
  decide (a.bytes = b.bytes)

end version_2_a

namespace version_2_b

/-- `version_2_b::Struct`: the `names` field is mandatory, `bytes` is gone. -/
structure Struct where
  version : Nat
  names : List (List Nat)
deriving DecidableEq, Repr

/-- Values of the Rust type. -/
def Struct.wf (x : Struct) : Bool :=
  decide (x.version < 256) && wfNames x.names

/-- Manual `Encode`: version, an explicit `None::<[u8; 4]>`, then
`Some(names)`. -/
def Struct.encode (x : Struct) : List Nat :=
  [x.version] ++ encodeOptBytes4 none ++ encodeOptNames (some x.names)

/-- Manual `Decode`: reads the version, decodes and discards the
`Option<[u8; 4]>` (errors still propagate), then decodes `Option<Vec<String>>`
and unconditionally unwraps it — an absent payload is a panic, modelled
`none`. -/
def Struct.decode : List Nat → Option (Struct × List Nat)
  | [] => none
  | v :: r =>
    match decodeOptBytes4 r with
    | some (_, r1) =>
      match decodeOptNames r1 with
      | some (some ns, r2) => some ({ version := v, names := ns }, r2)
      | some (none, _) => none
      | none => none
    | none => none

/-- `impl PartialEq for version_2_b::Struct`: compares `names` only. -/
def Struct.eq (a b : Struct) : Bool :=
  decide (a.names = b.names)

end version_2_b

/-- UTF-8 bytes of the test string `"hello"`. -/
def helloBytes : List Nat := [104, 101, 108, 108, 111]

/-- UTF-8 bytes of the test string `"world"`. -/
def worldBytes : List Nat := [119, 111, 114, 108, 100]

/-- The `version_1::Struct` built by `test_structs`. -/
def version_1_struct : version_1.Struct :=
  { version := 1, bytes := some ⟨55, 55, 55, 55⟩,
    names := some [helloBytes, worldBytes] }

/-- The `version_2_a::Struct` built by `test_structs`. -/
def version_2_a_struct : version_2_a.Struct :=
  { version := 2, bytes := ⟨55, 55, 55, 55⟩ }

/-- The `version_2_b::Struct` built by `test_structs`. -/
def version_2_b_struct : version_2_b.Struct :=
  { version := 2, names := [helloBytes, worldBytes] }

/-- Compact length round trip: decoding the compact encoding of any in-range
`n` yields `n` and leaves the rest of the input untouched. -/
theorem decodeCompact_encodeCompact (n : Nat) (rest : List Nat)
    (h : n < 4294967296) :
    decodeCompact (encodeCompact n ++ rest) = some (n, rest) := by
  unfold encodeCompact
  by_cases h1 : n < 64
  · rw [if_pos h1]
    show decodeCompact (n * 4 :: rest) = some (n, rest)
    simp only [decodeCompact]
    rw [if_pos (by omega)]
    have e : n * 4 / 4 = n := by omega
    rw [e]
  · rw [if_neg h1]
    by_cases h2 : n < 16384
    · rw [if_pos h2]
      show decodeCompact
          ((n * 4 + 1) % 256 :: (n * 4 + 1) / 256 :: rest) = some (n, rest)
      simp only [decodeCompact]
      rw [if_neg (by omega), if_pos (by omega), if_pos (by omega)]
      have e : ((n * 4 + 1) % 256 + (n * 4 + 1) / 256 * 256) / 4 = n := by
        omega
      rw [e]
    · rw [if_neg h2]
      by_cases h3 : n < 1073741824
      · rw [if_pos h3]
        show decodeCompact
            ((n * 4 + 2) % 256 :: (n * 4 + 2) / 256 % 256 ::
             (n * 4 + 2) / 65536 % 256 :: (n * 4 + 2) / 16777216 % 256 ::
             rest) = some (n, rest)
        simp only [decodeCompact]
        rw [if_neg (by omega), if_neg (by omega), if_pos (by omega),
          if_pos (by omega)]
        have e : ((n * 4 + 2) % 256 + (n * 4 + 2) / 256 % 256 * 256 +
            (n * 4 + 2) / 65536 % 256 * 65536 +
            (n * 4 + 2) / 16777216 % 256 * 16777216) / 4 = n := by omega
        rw [e]
      · rw [if_neg h3]
        show decodeCompact
            (3 :: n % 256 :: n / 256 % 256 :: n / 65536 % 256 ::
             n / 16777216 % 256 :: rest) = some (n, rest)
        simp only [decodeCompact]
        rw [if_neg (by norm_num)]
        rw [if_neg (by norm_num)]
        rw [if_neg (by norm_num)]
        rw [if_pos (by norm_num)]
        rw [if_pos (by omega)]
        have e : n % 256 + n / 256 % 256 * 256 + n / 65536 % 256 * 65536 +
            n / 16777216 % 256 * 16777216 = n := by omega
        rw [e]

/-- Reading back exactly the bytes just written leaves the rest untouched. -/
theorem readBytes_append (l rest : List Nat) :
    readBytes l.length (l ++ rest) = some (l, rest) := by
  induction l with
  | nil => rfl
  | cons b bs ih =>
    simp only [List.length_cons, List.cons_append, readBytes, List.append_eq]
    rw [ih]

/-- String round trip: decoding the encoding of a string yields it back. -/
theorem decodeStr_encodeStr (s rest : List Nat) (h : s.length < 4294967296) :
    decodeStr (encodeStr s ++ rest) = some (s, rest) := by
  unfold encodeStr
  rw [List.append_assoc]
  simp only [decodeStr, decodeCompact_encodeCompact s.length (s ++ rest) h,
    readBytes_append]

/-- Decoding back a concatenation of string encodings, counted. -/
theorem decodeStrs_encodeStrs (ns : List (List Nat)) (rest : List Nat)
    (h : ∀ s ∈ ns, s.length < 4294967296) :
    decodeStrs ns.length (encodeStrs ns ++ rest) = some (ns, rest) := by
  induction ns with
  | nil => rfl
  | cons s ss ih =>
    have hs : s.length < 4294967296 := h s (by simp)
    have hss : ∀ t ∈ ss, t.length < 4294967296 := fun t ht =>
      h t (List.mem_cons_of_mem s ht)
    simp only [List.length_cons, encodeStrs, List.append_assoc, decodeStrs,
      decodeStr_encodeStr s _ hs, ih hss]

/-- Unpacking the well-formedness of a `Vec<String>` value. -/
theorem wfNames_bounds (ns : List (List Nat)) (h : wfNames ns = true) :
    ns.length < 4294967296 ∧ ∀ s ∈ ns, s.length < 4294967296 := by
  simp only [wfNames, wfStr, Bool.and_eq_true, decide_eq_true_eq,
    List.all_eq_true] at h
  exact ⟨h.1, fun s hs => (h.2 s hs).1⟩

/-- `Vec<String>` round trip. -/
theorem decodeNames_encodeNames (ns : List (List Nat)) (rest : List Nat)
    (h : wfNames ns = true) :
    decodeNames (encodeNames ns ++ rest) = some (ns, rest) := by
  obtain ⟨h1, h2⟩ := wfNames_bounds ns h
  unfold encodeNames
  rw [List.append_assoc]
  simp only [decodeNames,
    decodeCompact_encodeCompact ns.length (encodeStrs ns ++ rest) h1,
    decodeStrs_encodeStrs ns rest h2]

/-- `Option<[u8; 4]>` round trip. -/
theorem decodeOptBytes4_encodeOptBytes4 (o : Option Bytes4) (rest : List Nat) :
    decodeOptBytes4 (encodeOptBytes4 o ++ rest) = some (o, rest) := by
  cases o with
  | none => rfl
  | some b => rfl

/-- `Option<Vec<String>>` round trip. -/
theorem decodeOptNames_encodeOptNames (o : Option (List (List Nat)))
    (rest : List Nat) (h : ∀ ns, o = some ns → wfNames ns = true) :
    decodeOptNames (encodeOptNames o ++ rest) = some (o, rest) := by
  cases o with
  | none => rfl
  | some ns =>
    show decodeOptNames (1 :: (encodeNames ns ++ rest)) = some (some ns, rest)
    simp only [decodeOptNames, decodeNames_encodeNames ns rest (h ns rfl)]

/-- Decidable equality commutes with argument order. -/
theorem decideEqComm {α : Type} [DecidableEq α] (x y : α) :
    decide (x = y) = decide (y = x) :=
  decide_eq_decide.mpr eq_comm

/-- version-1 round trip in composable form: decoding an encoding followed by
arbitrary further input returns the value and that further input. -/
theorem v1_roundtrip (x : version_1.Struct) (rest : List Nat)
    (hn : ∀ ns, x.names = some ns → wfNames ns = true) :
    version_1.Struct.decode (version_1.Struct.encode x ++ rest) =
      some (x, rest) := by
  simp only [version_1.Struct.encode]
  rw [List.append_assoc, List.append_assoc]
  simp only [List.cons_append, List.nil_append, version_1.Struct.decode,
    decodeOptBytes4_encodeOptBytes4, decodeOptNames_encodeOptNames x.names rest hn]

/-- version-2a round trip in composable form: the decoder never reads the
trailing encoded `None` for `names`, so that byte is left in the input. -/
theorem v2a_roundtrip (y : version_2_a.Struct)
    (rest : List Nat) :
    version_2_a.Struct.decode (version_2_a.Struct.encode y ++ rest) =
      some (y, 0 :: rest) := by
  simp only [version_2_a.Struct.encode, encodeOptNames]
  rw [List.append_assoc, List.append_assoc]
  simp only [List.cons_append, List.nil_append, version_2_a.Struct.decode,
    decodeOptBytes4_encodeOptBytes4]

/-- version-2b round trip in composable form. -/
theorem v2b_roundtrip (z : version_2_b.Struct)
    (rest : List Nat) (hn : wfNames z.names = true) :
    version_2_b.Struct.decode (version_2_b.Struct.encode z ++ rest) =
      some (z, rest) := by
  simp only [version_2_b.Struct.encode, encodeOptBytes4, encodeOptNames]
  rw [List.append_assoc, List.append_assoc]
  simp only [List.cons_append, List.nil_append, version_2_b.Struct.decode,
    decodeOptBytes4, decodeOptNames, decodeNames_encodeNames z.names rest hn]

/-- A version-1 decoder reading a version-2a encoding: `bytes` is found
present, `names` is found absent. -/
theorem version_1.decode_v2a_encode (y : version_2_a.Struct)
    (rest : List Nat) :
    version_1.Struct.decode (version_2_a.Struct.encode y ++ rest) =
      some ({ version := y.version, bytes := some y.bytes, names := none },
        rest) := by
  simp only [version_2_a.Struct.encode, encodeOptNames]
  rw [List.append_assoc, List.append_assoc]
  simp only [List.cons_append, List.nil_append, version_1.Struct.decode,
    decodeOptBytes4_encodeOptBytes4, decodeOptNames]

/-- A version-1 decoder reading a version-2b encoding: `bytes` is found
absent, `names` is found present. -/
theorem version_1.decode_v2b_encode (z : version_2_b.Struct)
    (rest : List Nat) (hn : wfNames z.names = true) :
    version_1.Struct.decode (version_2_b.Struct.encode z ++ rest) =
      some ({ version := z.version, bytes := none, names := some z.names },
        rest) := by
  simp only [version_2_b.Struct.encode, encodeOptBytes4, encodeOptNames]
  rw [List.append_assoc, List.append_assoc]
  simp only [List.cons_append, List.nil_append, version_1.Struct.decode,
    decodeOptBytes4, decodeOptNames, decodeNames_encodeNames z.names rest hn]

/-- A version-2a decoder reading a version-1 encoding whose `bytes` field is
present: it succeeds, keeping the wire's version tag, and leaves the encoded
`names` option unread. -/
theorem v2a_decode_v1_some (x : version_1.Struct) (b : Bytes4)
    (hb : x.bytes = some b) (rest : List Nat) :
    version_2_a.Struct.decode (version_1.Struct.encode x ++ rest) =
      some ({ version := x.version, bytes := b },
        encodeOptNames x.names ++ rest) := by
  simp only [version_1.Struct.encode, hb]
  rw [List.append_assoc, List.append_assoc]
  simp only [List.cons_append, List.nil_append, version_2_a.Struct.decode,
    decodeOptBytes4_encodeOptBytes4]

/-- A version-2a decoder reading a version-1 encoding whose `bytes` field is
absent: the unconditional unwrap fails (a panic, modelled as `none`). -/
theorem v2a_decode_v1_none (x : version_1.Struct)
    (hb : x.bytes = none) (rest : List Nat) :
    version_2_a.Struct.decode (version_1.Struct.encode x ++ rest) = none := by
  simp only [version_1.Struct.encode, hb, encodeOptBytes4]
  rw [List.append_assoc, List.append_assoc]
  simp only [List.cons_append, List.nil_append, version_2_a.Struct.decode,
    decodeOptBytes4]

/-- A version-2b decoder reading a version-1 encoding whose `names` field is
present: it succeeds, keeping the wire's version tag and discarding the
`bytes` option. -/
theorem v2b_decode_v1_some (x : version_1.Struct)
    (ns : List (List Nat)) (hns : x.names = some ns)
    (hwf : wfNames ns = true) (rest : List Nat) :
    version_2_b.Struct.decode (version_1.Struct.encode x ++ rest) =
      some ({ version := x.version, names := ns }, rest) := by
  simp only [version_1.Struct.encode, hns, encodeOptNames]
  rw [List.append_assoc, List.append_assoc]
  simp only [List.cons_append, List.nil_append, version_2_b.Struct.decode,
    decodeOptBytes4_encodeOptBytes4, decodeOptNames,
    decodeNames_encodeNames ns rest hwf]

/-- A version-2b decoder reading a version-1 encoding whose `names` field is
absent: the unconditional unwrap fails (a panic, modelled as `none`). -/
theorem v2b_decode_v1_none (x : version_1.Struct)
    (hns : x.names = none) (rest : List Nat) :
    version_2_b.Struct.decode (version_1.Struct.encode x ++ rest) = none := by
  simp only [version_1.Struct.encode, hns, encodeOptNames]
  rw [List.append_assoc, List.append_assoc]
  simp only [List.cons_append, List.nil_append, version_2_b.Struct.decode,
    decodeOptBytes4_encodeOptBytes4, decodeOptNames]

/-- The version-1 Partial Equality as a single boolean expression: each
evolvable field contributes its comparison when present on both sides and
`true` otherwise. -/
theorem version_1.Struct.eq_spec (a b : version_1.Struct) :
    version_1.Struct.eq a b =
      ((if a.bytes.isSome && b.bytes.isSome then decide (a.bytes = b.bytes)
        else true) &&
       (if a.names.isSome && b.names.isSome then decide (a.names = b.names)
        else true)) := by
  by_cases hb : (a.bytes.isSome && b.bytes.isSome) = true <;>
    by_cases hn : (a.names.isSome && b.names.isSome) = true <;>
    simp [version_1.Struct.eq, hb, hn]

/-- A well-formed version-1 value has well-formed names when present. -/
theorem v1_wf_names (x : version_1.Struct)
    (h : version_1.Struct.wf x = true) :
    ∀ ns, x.names = some ns → wfNames ns = true := by
  intro ns hns
  simp only [version_1.Struct.wf, Bool.and_eq_true] at h
  have h2 := h.2
  rw [hns] at h2
  exact h2

/-- A well-formed version-2b value has well-formed names. -/
theorem v2b_wf_names (z : version_2_b.Struct)
    (h : version_2_b.Struct.wf z = true) : wfNames z.names = true := by
  simp only [version_2_b.Struct.wf, Bool.and_eq_true] at h
  exact h.2

/-- Version-1 Partial Equality is reflexive. -/
theorem version_1.Struct.eqRefl (x : version_1.Struct) :
    version_1.Struct.eq x x = true := by
  cases hb : x.bytes <;> cases hn : x.names <;>
    simp [version_1.Struct.eq, hb, hn]

/-- Version-1 Partial Equality is symmetric. -/
theorem version_1.Struct.eqSymm (a b : version_1.Struct) :
    version_1.Struct.eq a b = version_1.Struct.eq b a := by
  rw [version_1.Struct.eq_spec, version_1.Struct.eq_spec,
    decideEqComm a.bytes b.bytes, decideEqComm a.names b.names,
    Bool.and_comm a.bytes.isSome b.bytes.isSome,
    Bool.and_comm a.names.isSome b.names.isSome]

/-- C1: Self-round-trip — for every value of each of the three struct types,
decoding the bytes produced by encoding it succeeds (the version-2a decoder
leaves the trailing encoded `None` byte unread) and the decoded value is the
original, hence Partial-Equality-equal to it. -/
theorem self_compatibility :
    (∀ x : version_1.Struct, version_1.Struct.wf x = true →
      version_1.Struct.decode (version_1.Struct.encode x) = some (x, []) ∧
      version_1.Struct.eq x x = true) ∧
    (∀ y : version_2_a.Struct,
      version_2_a.Struct.decode (version_2_a.Struct.encode y) =
        some (y, [0]) ∧
      version_2_a.Struct.eq y y = true) ∧
    (∀ z : version_2_b.Struct, version_2_b.Struct.wf z = true →
      version_2_b.Struct.decode (version_2_b.Struct.encode z) = some (z, []) ∧
      version_2_b.Struct.eq z z = true) := by
  refine ⟨fun x hx => ⟨?_, version_1.Struct.eqRefl x⟩,
    fun y => ⟨?_, by simp [version_2_a.Struct.eq]⟩,
    fun z hz => ⟨?_, by simp [version_2_b.Struct.eq]⟩⟩
  · have h := v1_roundtrip x [] (v1_wf_names x hx)
    simpa using h
  · have h := v2a_roundtrip y []
    simpa using h
  · have h := v2b_roundtrip z [] (v2b_wf_names z hz)
    simpa using h

/-- C1 witness: the self-round-trip theorem applied to the concrete
`test_structs` values. -/
theorem self_compatibility_witness :
    (version_1.Struct.decode (version_1.Struct.encode version_1_struct) =
      some (version_1_struct, []) ∧
     version_1.Struct.eq version_1_struct version_1_struct = true) ∧
    (version_2_b.Struct.decode (version_2_b.Struct.encode version_2_b_struct) =
      some (version_2_b_struct, []) ∧
     version_2_b.Struct.eq version_2_b_struct version_2_b_struct = true) :=
  ⟨self_compatibility.1 version_1_struct (by decide),
   self_compatibility.2.2 version_2_b_struct (by decide)⟩

/-- C2 counterexample: a version-1 value with `bytes = None` and
`names = None` encodes fine, but both version-2 decoders fail on it (the
unconditional unwrap panics) instead of succeeding with a default. -/
theorem backwards_compatibility_counterexample :
    version_2_a.Struct.decode
      (version_1.Struct.encode
        { version := 1, bytes := none, names := none }) = none ∧
    version_2_b.Struct.decode
      (version_1.Struct.encode
        { version := 1, bytes := none, names := none }) = none := by
  exact ⟨rfl, rfl⟩

/-- C2 as amended: a newer decoder succeeds on an older encoding exactly when
the field it unwraps is present, yielding the value carried by the wire (tag
included); when the field is absent the decode fails hard — no default is
substituted. -/
theorem backwards_compatibility :
    (∀ x : version_1.Struct, ∀ b : Bytes4, x.bytes = some b →
      version_2_a.Struct.decode (version_1.Struct.encode x) =
        some ({ version := x.version, bytes := b },
          encodeOptNames x.names)) ∧
    (∀ x : version_1.Struct, x.bytes = none →
      version_2_a.Struct.decode (version_1.Struct.encode x) = none) ∧
    (∀ x : version_1.Struct, ∀ ns, x.names = some ns → wfNames ns = true →
      version_2_b.Struct.decode (version_1.Struct.encode x) =
        some ({ version := x.version, names := ns }, [])) ∧
    (∀ x : version_1.Struct, x.names = none →
      version_2_b.Struct.decode (version_1.Struct.encode x) = none) := by
  refine ⟨fun x b hb => ?_, fun x hb => ?_, fun x ns hns hwf => ?_,
    fun x hns => ?_⟩
  · have h := v2a_decode_v1_some x b hb []
    simpa using h
  · have h := v2a_decode_v1_none x hb []
    simpa using h
  · have h := v2b_decode_v1_some x ns hns hwf []
    simpa using h
  · have h := v2b_decode_v1_none x hns []
    simpa using h

/-- C2 witness: the amended theorem applied to the concrete `test_structs`
version-1 value, for both newer decoders. -/
theorem backwards_compatibility_witness :
    version_2_a.Struct.decode (version_1.Struct.encode version_1_struct) =
      some ({ version := 1, bytes := ⟨55, 55, 55, 55⟩ },
        encodeOptNames (some [helloBytes, worldBytes])) ∧
    version_2_b.Struct.decode (version_1.Struct.encode version_1_struct) =
      some ({ version := 1, names := [helloBytes, worldBytes] }, []) :=
  ⟨backwards_compatibility.1 version_1_struct ⟨55, 55, 55, 55⟩ rfl,
   backwards_compatibility.2.2.1 version_1_struct [helloBytes, worldBytes]
     rfl (by decide)⟩

/-- C3: Forward compatibility — the version-1 decoder succeeds on both
version-2 encodings, preserving the known field as `Some` and marking the
field the writer lacks as `None` (the version tag carried is the writer's). -/
theorem forwards_compatibility :
    (∀ y : version_2_a.Struct,
      version_1.Struct.decode (version_2_a.Struct.encode y) =
        some ({ version := y.version, bytes := some y.bytes, names := none },
          [])) ∧
    (∀ z : version_2_b.Struct, wfNames z.names = true →
      version_1.Struct.decode (version_2_b.Struct.encode z) =
        some ({ version := z.version, bytes := none, names := some z.names },
          [])) := by
  refine ⟨fun y => ?_, fun z hz => ?_⟩
  · have h := version_1.decode_v2a_encode y []
    simpa using h
  · have h := version_1.decode_v2b_encode z [] hz
    simpa using h

/-- C3 witness: the forward-compatibility theorem applied to the concrete
`test_structs` version-2b value. -/
theorem forwards_compatibility_witness :
    version_1.Struct.decode (version_2_b.Struct.encode version_2_b_struct) =
      some ({ version := 2, bytes := none, names := some [helloBytes, worldBytes] }, []) :=
  forwards_compatibility.2 version_2_b_struct (by decide)

/-- C4: Re-encoding stability — decoding a version-2 encoding down to
version 1, re-encoding that value and decoding back with the original
version-2 decoder reproduces the original value (so in particular a value
Partial-Equality-equal to it); the version-2a decoder leaves the re-encoded
`None` byte unread. -/
theorem reencoding :
    (∀ y : version_2_a.Struct,
      version_1.Struct.decode (version_2_a.Struct.encode y) =
        some ({ version := y.version, bytes := some y.bytes, names := none },
          []) ∧
      version_2_a.Struct.decode
        (version_1.Struct.encode
          { version := y.version, bytes := some y.bytes, names := none }) =
        some (y, [0]) ∧
      version_2_a.Struct.eq y y = true) ∧
    (∀ z : version_2_b.Struct, wfNames z.names = true →
      version_1.Struct.decode (version_2_b.Struct.encode z) =
        some ({ version := z.version, bytes := none, names := some z.names },
          []) ∧
      version_2_b.Struct.decode
        (version_1.Struct.encode
          { version := z.version, bytes := none, names := some z.names }) =
        some (z, []) ∧
      version_2_b.Struct.eq z z = true) := by
  refine ⟨fun y => ⟨?_, ?_, by simp [version_2_a.Struct.eq]⟩,
    fun z hz => ⟨?_, ?_, by simp [version_2_b.Struct.eq]⟩⟩
  · have h := version_1.decode_v2a_encode y []
    simpa using h
  · have h := v2a_decode_v1_some
      { version := y.version, bytes := some y.bytes, names := none }
      y.bytes rfl []
    simpa [encodeOptNames] using h
  · have h := version_1.decode_v2b_encode z [] hz
    simpa using h
  · have h := v2b_decode_v1_some
      { version := z.version, bytes := none, names := some z.names }
      z.names rfl hz []
    simpa using h

/-- C4 witness: re-encoding stability at the concrete `test_structs`
version-2b value. -/
theorem reencoding_witness :
    version_1.Struct.decode (version_2_b.Struct.encode version_2_b_struct) =
      some ({ version := 2, bytes := none, names := some [helloBytes, worldBytes] }, []) ∧
    version_2_b.Struct.decode
      (version_1.Struct.encode
        { version := 2, bytes := none, names := some [helloBytes, worldBytes] }) =
      some (version_2_b_struct, []) ∧
    version_2_b.Struct.eq version_2_b_struct version_2_b_struct = true :=
  reencoding.2 version_2_b_struct (by decide)

/-- C5: version-1 Partial Equality compares an evolvable field only when it
is `Some` in both operands, skips it otherwise, and is the conjunction of the
comparable fields — in particular it is `true` when no field is comparable. -/
theorem partial_equality_fields :
    ∀ a b : version_1.Struct,
      (version_1.Struct.eq a b =
        ((if a.bytes.isSome && b.bytes.isSome then decide (a.bytes = b.bytes)
          else true) &&
         (if a.names.isSome && b.names.isSome then decide (a.names = b.names)
          else true))) ∧
      ((a.bytes = none ∨ b.bytes = none) → (a.names = none ∨ b.names = none) →
        version_1.Struct.eq a b = true) := by
  intro a b
  refine ⟨version_1.Struct.eq_spec a b, fun hb hn => ?_⟩
  rw [version_1.Struct.eq_spec a b]
  have hb1 : (a.bytes.isSome && b.bytes.isSome) = false := by
    rcases hb with h | h <;> simp [h]
  have hn1 : (a.names.isSome && b.names.isSome) = false := by
    rcases hn with h | h <;> simp [h]
  rw [hb1, hn1]
  rfl

/-- C5 witness: two records with no mutually-present evolvable field compare
equal. -/
theorem partial_equality_fields_witness :
    version_1.Struct.eq { version := 1, bytes := none, names := none }
      version_1_struct = true :=
  (partial_equality_fields { version := 1, bytes := none, names := none }
    version_1_struct).2 (Or.inl rfl) (Or.inl rfl)

/-- C6: Partial Equality is reflexive for all three struct types and
symmetric (the comparison is invariant under swapping the operands, which
gives the claim's implication form directly). -/
theorem partial_equality_refl_symm :
    (∀ x : version_1.Struct, version_1.Struct.eq x x = true) ∧
    (∀ x y : version_1.Struct,
      version_1.Struct.eq x y = version_1.Struct.eq y x) ∧
    (∀ x : version_2_a.Struct, version_2_a.Struct.eq x x = true) ∧
    (∀ x y : version_2_a.Struct,
      version_2_a.Struct.eq x y = version_2_a.Struct.eq y x) ∧
    (∀ x : version_2_b.Struct, version_2_b.Struct.eq x x = true) ∧
    (∀ x y : version_2_b.Struct,
      version_2_b.Struct.eq x y = version_2_b.Struct.eq y x) := by
  refine ⟨version_1.Struct.eqRefl, version_1.Struct.eqSymm,
    fun x => by simp [version_2_a.Struct.eq],
    fun x y => decideEqComm x.bytes y.bytes,
    fun x => by simp [version_2_b.Struct.eq],
    fun x y => decideEqComm x.names y.names⟩

/-- C7 counterexample: two version-2a records that differ in the
always-present version tag but agree on `bytes` are reported equal by
Partial Equality, so a version-tag mismatch does not force inequality. -/
theorem stable_field_counterexample :
    version_2_a.Struct.eq { version := 1, bytes := ⟨0, 0, 0, 0⟩ }
      { version := 2, bytes := ⟨0, 0, 0, 0⟩ } = true ∧
    ({ version := 1, bytes := ⟨0, 0, 0, 0⟩ } : version_2_a.Struct).version ≠
      ({ version := 2, bytes := ⟨0, 0, 0, 0⟩ } : version_2_a.Struct).version :=
  ⟨rfl, by decide⟩

/-- C7 as amended: Partial Equality compares the stable non-version field
normally — version-2a equality is exactly the `bytes` comparison and
version-2b equality exactly the `names` comparison, so a mismatch there
forces inequality — but the always-present version tag is never consulted:
every comparison is invariant under changing the version tags. -/
theorem stable_field_comparison :
    (∀ a b : version_1.Struct, ∀ v v' : Nat,
      version_1.Struct.eq
        { version := v, bytes := a.bytes, names := a.names }
        { version := v', bytes := b.bytes, names := b.names } =
        version_1.Struct.eq a b) ∧
    (∀ a b : version_2_a.Struct,
      version_2_a.Struct.eq a b = decide (a.bytes = b.bytes)) ∧
    (∀ a b : version_2_a.Struct, ∀ v v' : Nat,
      version_2_a.Struct.eq { version := v, bytes := a.bytes }
        { version := v', bytes := b.bytes } = version_2_a.Struct.eq a b) ∧
    (∀ a b : version_2_b.Struct,
      version_2_b.Struct.eq a b = decide (a.names = b.names)) ∧
    (∀ a b : version_2_b.Struct, ∀ v v' : Nat,
      version_2_b.Struct.eq { version := v, names := a.names }
        { version := v', names := b.names } = version_2_b.Struct.eq a b) :=
  ⟨fun _ _ _ _ => rfl, fun _ _ => rfl, fun _ _ _ _ => rfl, fun _ _ => rfl,
   fun _ _ _ _ => rfl⟩

/-- C8 counterexample: decoding the encoded `test_structs` version-1 value
with the version-2a decoder yields a record carrying the wire's version tag 1,
which is not exactly the claimed `{version: 2, bytes: [55,55,55,55]}`. -/
theorem test_structs_scenario_counterexample :
    version_2_a.Struct.decode (version_1.Struct.encode version_1_struct) =
      some ({ version := 1, bytes := ⟨55, 55, 55, 55⟩ },
        encodeOptNames (some [helloBytes, worldBytes])) ∧
    ({ version := 1, bytes := ⟨55, 55, 55, 55⟩ } : version_2_a.Struct) ≠
      { version := 2, bytes := ⟨55, 55, 55, 55⟩ } := by
  constructor
  · rfl
  · decide

/-- C8 as amended: the concrete scenario holds up to Partial Equality — the
version-2a decoder yields `{version: 1, bytes: [55,55,55,55]}` (the wire's
tag, Partial-Equality-equal to the claimed `{version: 2, ...}` record), the
version-2b decoder yields `{version: 1, names: ["hello","world"]}`, and both
results, re-encoded and decoded back as version 1, reproduce the original
value under Partial Equality. -/
theorem test_structs_scenario :
    version_2_a.Struct.decode (version_1.Struct.encode version_1_struct) =
      some ({ version := 1, bytes := ⟨55, 55, 55, 55⟩ },
        encodeOptNames (some [helloBytes, worldBytes])) ∧
    version_2_a.Struct.eq { version := 1, bytes := ⟨55, 55, 55, 55⟩ }
      version_2_a_struct = true ∧
    version_2_b.Struct.decode (version_1.Struct.encode version_1_struct) =
      some ({ version := 1, names := [helloBytes, worldBytes] }, []) ∧
    version_2_b.Struct.eq { version := 1, names := [helloBytes, worldBytes] }
      version_2_b_struct = true ∧
    version_1.Struct.decode
      (version_2_a.Struct.encode { version := 1, bytes := ⟨55, 55, 55, 55⟩ }) =
      some ({ version := 1, bytes := some ⟨55, 55, 55, 55⟩, names := none },
        []) ∧
    version_1.Struct.eq
      { version := 1, bytes := some ⟨55, 55, 55, 55⟩, names := none }
      version_1_struct = true ∧
    version_1.Struct.decode
      (version_2_b.Struct.encode
        { version := 1, names := [helloBytes, worldBytes] }) =
      some ({ version := 1, bytes := none, names := some [helloBytes, worldBytes] },
        []) ∧
    version_1.Struct.eq
      { version := 1, bytes := none, names := some [helloBytes, worldBytes] }
      version_1_struct = true := by
  refine ⟨rfl, by decide, rfl, by decide, rfl, by decide, rfl, by decide⟩

/-- C9: Unexpected absence is a hard failure — whenever the explicit-optional
discriminant of the field a version-2 decoder unconditionally unwraps carries
the "nothing" marker (byte 0), the decode returns no record at all, for every
version byte, every preceding `bytes` option shape and every continuation of
the input. -/
theorem unexpected_absence :
    (∀ v : Nat, ∀ rest : List Nat,
      version_2_a.Struct.decode (v :: 0 :: rest) = none) ∧
    (∀ v : Nat, ∀ rest : List Nat,
      version_2_b.Struct.decode (v :: 0 :: 0 :: rest) = none) ∧
    (∀ v b0 b1 b2 b3 : Nat, ∀ rest : List Nat,
      version_2_b.Struct.decode
        (v :: 1 :: b0 :: b1 :: b2 :: b3 :: 0 :: rest) = none) :=
  ⟨fun _ _ => rfl, fun _ _ => rfl, fun _ _ _ _ _ _ => rfl⟩

/-- C10: Encoding equivalence — each version-2 encoder writes byte-for-byte
the same output as the version-1 encoder on the corresponding version-1
record (present field wrapped in `Some`, missing field as `None`). -/
theorem encoding_equivalence :
    (∀ y : version_2_a.Struct,
      version_2_a.Struct.encode y =
        version_1.Struct.encode
          { version := y.version, bytes := some y.bytes, names := none }) ∧
    (∀ z : version_2_b.Struct,
      version_2_b.Struct.encode z =
        version_1.Struct.encode
          { version := z.version, bytes := none, names := some z.names }) :=
  ⟨fun _ => rfl, fun _ => rfl⟩
